import Mathlib

/-!
Verification of the `My_skills` thesis-assistant retrieval pipeline.

This file gives a shallow embedding of the Python sources
`scripts/paper_searcher.py`, `scripts/thesis_paper_searcher.py` and
`references/paper_search.py`, and proves the specified properties of
search capping, detail extraction, verification, deduplication and
citation formatting.

Modelling conventions:
* A fetched page (BeautifulSoup document) is an association list from a
  CSS selector string to the list of nodes that selector yields, in
  document order; `soup.select` / `soup.select_one` become `selectList` /
  `selectOne`.
* Python `str.strip()` is `pyStrip`, `s[:n]` is `pyTake`,
  `str.replace` is `pyReplace`, `split(',')` is `splitComma` (all
  defined over the character list so the kernel can evaluate them).
* A Python dict value for a record field is three-valued: the key may be
  absent, present with value `None`, or present with a string; this is
  `PyField.absent / .null / .str`.
* Reading a missing attribute (`elem['content']`) raises `KeyError`,
  which the extractors' `try/except` turns into an overall `None`
  result; `metaContent` models this with `Except`.
* `requests.get` plus `raise_for_status` is a fetch oracle
  `String → Except Unit doc`; a `.error` result models any transport
  exception or non-success status.
-/

namespace PaperSearch

/-- Python `str.strip()`: drop whitespace from both ends. -/
def pyStrip (s : String) : String :=
  String.mk (((s.data.dropWhile Char.isWhitespace).reverse.dropWhile Char.isWhitespace).reverse)

/-- Python `s[:n]` on a string (character based, never out of range). -/
def pyTake (s : String) (n : Nat) : String :=
  String.mk (s.data.take n)

/-- Python `len(s)` (number of characters). -/
def pyLen (s : String) : Nat := s.data.length

/-- Replace every occurrence of `pat` (non-overlapping, left to right)
by `rep`, as Python `str.replace` does for a non-empty pattern.  The
`fuel` argument only makes the recursion structural; with
`fuel ≥ l.length` it never runs out, since every step strictly shortens
the list. -/
def replaceGo (pat rep : List Char) : Nat → List Char → List Char
  | _, [] => []
  | 0, l => l
  | fuel + 1, c :: rest =>
    if pat ≠ [] ∧ pat.isPrefixOf (c :: rest) then
      rep ++ replaceGo pat rep fuel ((c :: rest).drop pat.length)
    else
      c :: replaceGo pat rep fuel rest

/-- Python `s.replace(pat, rep)` for a non-empty `pat`. -/
def pyReplace (s pat rep : String) : String :=
  String.mk (replaceGo pat.data rep.data s.data.length s.data)

/-- Python `s.split(',')`: split at every comma, keeping empty pieces. -/
def splitComma (s : String) : List String :=
  (s.data.foldr
    (fun c acc =>
      if c = ',' then [] :: acc
      else
        match acc with
        | h :: t => (c :: h) :: t
        | [] => [[c]])
    [[]]).map String.mk

/-- `pat` occurs as a contiguous substring of `s`. -/
abbrev strContains (s pat : String) : Prop := pat.data <:+: s.data

/-- A dict field of a Paper Record: the key may be absent, present with
Python `None`, or present with a string value. -/
inductive PyField where
  | absent : PyField
  | null : PyField
  | str : String → PyField
deriving DecidableEq

/-- Truthiness of `paper.get(key)` / `paper.get(key, '')`: only a
non-empty string value is truthy. -/
def fieldTruthy : PyField → Bool
  | .str s => s ≠ ""
  | _ => false

/-- `paper.get(key, '')` followed by a truthiness test, returning the
string when it is truthy. -/
def fieldGetTruthy : PyField → Option String
  | .str s => if s = "" then none else some s
  | _ => none

/-- How `f"...{paper.get(key, default)}..."` renders the field: the
default only fires when the key is absent; a stored `None` renders as
the text `None`. -/
def fieldRender (f : PyField) (default : String) : String :=
  match f with
  | .absent => default
  | .null => "None"
  | .str s => s

/-- The normalized Paper Record shape produced by the extractors
(`paper_info` dict). `authors` is `none` when the key was never set. -/
structure Paper where
  url : PyField
  platform : String
  title : PyField
  authors : Option (List String)
  journal : PyField
  year : PyField
  doi : PyField
  abstract : PyField
deriving DecidableEq

/-- A result link on a search page; `href` is `link.get('href')`. -/
structure Link where
  href : Option String
deriving DecidableEq

/-- One result container on a search page: per sub-selector, its links
in document order (`item.select_one(sel)` takes the head). -/
abbrev Item := List (String × List Link)

/-- A parsed search page: per selector, its result containers in
document order. -/
abbrev SearchDoc := List (String × List Item)

/-- A node of a detail page: its raw text, its attributes, and, per
sub-selector, the raw texts of its matching descendants. -/
structure Elem where
  text : String
  attrs : List (String × String)
  subTexts : List (String × List String)
deriving DecidableEq

/-- A parsed detail page: per selector, its nodes in document order. -/
abbrev DetailDoc := List (String × List Elem)

/-- `soup.select(sel)`: all nodes the selector yields, document order. -/
def selectList {α : Type} (doc : List (String × List α)) (sel : String) : List α :=
  match doc.find? (fun e => e.1 = sel) with
  | some e => e.2
  | none => []

/-- `soup.select_one(sel)`: the first node, if any. -/
def selectOne {α : Type} (doc : List (String × List α)) (sel : String) : Option α :=
  (selectList doc sel).head?

/-- The Python fallback idiom `soup.select_one(a) or soup.select_one(b)`. -/
def selectFirst {α : Type} (doc : List (String × List α)) (sel1 sel2 : String) : Option α :=
  match selectOne doc sel1 with
  | some e => some e
  | none => selectOne doc sel2

/-- `elem.get_text(strip=True)`. -/
def getText (e : Elem) : String := pyStrip e.text

/-- `elem[name]` as an `Option`; `none` corresponds to a `KeyError`. -/
def getAttr (e : Elem) (name : String) : Option String :=
  (e.attrs.find? (fun a => a.1 = name)).map (fun a => a.2)

/-- `elem.select(sel)` inside a node, returning the descendants' raw
texts. -/
def selectSub (e : Elem) (sel : String) : List String :=
  match e.subTexts.find? (fun x => x.1 = sel) with
  | some x => x.2
  | none => []

/-- The idiom `elem['content'] if elem else None` under the enclosing
`try`: selector miss gives `ok none`, a present node without the
attribute raises (`error`), otherwise `ok (some content)`. -/
def metaContent (soup : DetailDoc) (sel : String) : Except Unit (Option String) :=
  match selectOne soup sel with
  | some e =>
    match getAttr e "content" with
    | some c => Except.ok (some c)
    | none => Except.error ()
  | none => Except.ok none

/-- Fetch oracle for search pages (`requests.get` + parse). -/
abbrev FetchSearch := String → Except Unit SearchDoc

/-- Fetch oracle for detail pages. -/
abbrev FetchDetail := String → Except Unit DetailDoc

/-! ## `paper_searcher.search_papers` -/

/-- The platforms registered in `search_urls`. -/
def supportedPlatforms : List String := ["cnki", "wanfang", "cqvip", "arxiv", "openalex"]

/-- The `search_urls` templates of `search_papers`. -/
def searchUrl (platform keyword : String) (maxResults : Nat) : String :=
  if platform = "cnki" then
    "https://search.cnki.com.cn/Search/Result?content=" ++ keyword
  else if platform = "wanfang" then
    "https://www.wanfangdata.com.cn/search/searchAll.jsp?searchType=all&content=" ++ keyword
  else if platform = "cqvip" then
    "https://search.qikan.cqvip.com/search/Result?content=" ++ keyword
  else if platform = "arxiv" then
    "https://arxiv.org/search/?query=" ++ keyword ++ "&search_type=all&max_results=" ++ toString maxResults
  else
    "https://openalex.org/works?search=" ++ keyword ++ "&per-page=" ++ toString maxResults

/-- The body of each result loop:
`link = item.select_one(linkSel); if link and link.get('href'):` —
the URL contributed by one result container, if any.  An empty `href`
string is falsy and contributes nothing. -/
def itemUrl (linkSel absPrefix : String) (item : Item) : Option String :=
  match selectOne item linkSel with
  | some link =>
    match link.href with
    | some h => if h ≠ "" then some (absPrefix ++ h) else none
    | none => none
  | none => none

/-- One iteration of the result loop: append the container's URL, if
any, to the accumulated list. -/
def appendStep {α β : Type} (f : α → Option β) (urls : List β) (item : α) : List β :=
  match f item with
  | some u => urls ++ [u]
  | none => urls

/-- `for item in soup.select(sel)[:max_results]: ... urls.append(...)`. -/
def collectUrls (items : List Item) (maxResults : Nat) (linkSel absPrefix : String) : List String :=
  List.foldl (appendStep (itemUrl linkSel absPrefix)) [] (items.take maxResults)

/-- `paper_searcher.search_papers`.  The first component is the returned
URL list or the raised exception (`ValueError` for an unsupported
platform, the transport error otherwise); the second component logs the
URLs actually fetched, so "no network activity" is observable. -/
def search_papers (fetch : FetchSearch) (keyword platform : String) (maxResults : Nat) :
    Except String (List String) × List String :=
  if supportedPlatforms.contains platform then
    let url := searchUrl platform keyword maxResults
    match fetch url with
    | Except.error _ => (Except.error "Unreachable", [url])
    | Except.ok soup =>
      let urls :=
        if platform = "cnki" then
          collectUrls (selectList soup ".result-list li") maxResults "a" ""
        else if platform = "wanfang" then
          collectUrls (selectList soup ".search-list li") maxResults "a" ""
        else if platform = "cqvip" then
          collectUrls (selectList soup ".result-list li") maxResults "a" ""
        else if platform = "arxiv" then
          collectUrls (selectList soup ".list-lst") maxResults ".title a" "https://arxiv.org"
        else
          collectUrls (selectList soup ".work") maxResults "a" "https://openalex.org"
      (Except.ok urls, [url])
  else
    (Except.error ("Unsupported platform: " ++ platform), [])

/-! ## Detail extraction -/

/-- `if len(text) >= 4 then text[:4] else text` — the year heuristic of
`paper_searcher.get_paper_details` (cnki and openalex branches). -/
def cnki_year_ps (text : String) : String :=
  if 4 ≤ pyLen text then pyTake text 4 else text

/-- Leftmost run of four consecutive digits, as
`re.search(r'(\d{4})', text)` finds it (`\d` modelled as an ASCII
digit). -/
def findFourDigit : List Char → Option (List Char)
  | [] => none
  | c :: rest =>
    if ((c :: rest).take 4).all Char.isDigit ∧ 4 ≤ (c :: rest).length then
      some ((c :: rest).take 4)
    else
      findFourDigit rest

/-- `re.search(r'(\d{4})', text)` with `match.group(1)`. -/
def reSearchFourDigits (text : String) : Option String :=
  (findFourDigit text.data).map String.mk

/-- The year heuristic of `thesis_paper_searcher.get_cnki_paper_details`:
first four-digit run if any, else the first four characters. -/
def cnki_year_thesis (text : String) : String :=
  match reSearchFourDigits text with
  | some run => run
  | none => pyTake text 4

/-- `paper_searcher.get_paper_details`.  `none` models the `except`
branch (a fetch failure or a `KeyError` on a metadata attribute);
platforms without a branch return the bare `{url, platform}` record. -/
def get_paper_details (fetch : FetchDetail) (url platform : String) : Option Paper :=
  match fetch url with
  | Except.error _ => none
  | Except.ok soup =>
    if platform = "cnki" then
      let title :=
        match selectFirst soup "#mainTitle" "h1.title" with
        | some e => PyField.str (getText e)
        | none => PyField.null
      let authors := ((selectList soup ".author a").take 5).map getText
      let journal :=
        match selectFirst soup ".journal-name" ".journal" with
        | some e => PyField.str (getText e)
        | none => PyField.null
      let year :=
        match selectFirst soup ".publish-date" ".year" with
        | some e => PyField.str (cnki_year_ps (getText e))
        | none => PyField.absent
      match metaContent soup "meta[name=\"citation_doi\"]" with
      | Except.error _ => none
      | Except.ok dc =>
        let doi := match dc with | some c => PyField.str c | none => PyField.null
        some (Paper.mk (PyField.str url) platform title (some authors) journal year doi PyField.absent)
    else if platform = "arxiv" then
      match metaContent soup "meta[name=\"citation_title\"]" with
      | Except.error _ => none
      | Except.ok tc =>
        let title := match tc with | some c => PyField.str c | none => PyField.null
        let authors := (selectList soup ".authors a").map getText
        match metaContent soup "meta[name=\"citation_journal_title\"]" with
        | Except.error _ => none
        | Except.ok jc =>
          let journal := match jc with | some c => PyField.str c | none => PyField.str "arXiv"
          match metaContent soup "meta[name=\"citation_date\"]" with
          | Except.error _ => none
          | Except.ok yc =>
            let year := match yc with | some c => PyField.str (pyTake c 4) | none => PyField.absent
            match metaContent soup "meta[name=\"citation_doi\"]" with
            | Except.error _ => none
            | Except.ok dc =>
              let doi := match dc with | some c => PyField.str c | none => PyField.null
              some (Paper.mk (PyField.str url) platform title (some authors) journal year doi PyField.absent)
    else if platform = "openalex" then
      let title :=
        match selectFirst soup "h1" ".title" with
        | some e => PyField.str (getText e)
        | none => PyField.null
      let authors := ((selectList soup ".authors span").take 5).map getText
      let journal :=
        match selectFirst soup ".journal" ".venue" with
        | some e => PyField.str (getText e)
        | none => PyField.null
      let year :=
        match selectFirst soup ".year" ".publication_date" with
        | some e => PyField.str (cnki_year_ps (getText e))
        | none => PyField.absent
      some (Paper.mk (PyField.str url) platform title (some authors) journal year PyField.null PyField.absent)
    else
      some (Paper.mk (PyField.str url) platform PyField.absent none PyField.absent PyField.absent PyField.absent PyField.absent)

/-- `thesis_paper_searcher.get_cnki_paper_details`; note the final
`return paper_info if paper_info.get('title') else None`. -/
def get_cnki_paper_details (fetch : FetchDetail) (url : String) : Option Paper :=
  match fetch url with
  | Except.error _ => none
  | Except.ok soup =>
    let title :=
      match selectFirst soup "#mainTitle" "h1" with
      | some e => PyField.str (getText e)
      | none => PyField.null
    let authors := ((selectList soup ".author a").take 5).map getText
    let journal :=
      match selectOne soup ".journal-name" with
      | some e => PyField.str (getText e)
      | none => PyField.null
    let year :=
      match selectOne soup ".publish-date" with
      | some e => PyField.str (cnki_year_thesis (getText e))
      | none => PyField.absent
    match metaContent soup "meta[name=\"citation_doi\"]" with
    | Except.error _ => none
    | Except.ok dc =>
      let doi := match dc with | some c => PyField.str c | none => PyField.null
      if fieldTruthy title then
        some (Paper.mk (PyField.str url) "cnki" title (some authors) journal year doi PyField.absent)
      else
        none

/-- `thesis_paper_searcher.get_arxiv_paper_details`; also guarded by the
truthy-title return. -/
def get_arxiv_paper_details (fetch : FetchDetail) (url : String) : Option Paper :=
  match fetch url with
  | Except.error _ => none
  | Except.ok soup =>
    match metaContent soup "meta[name=\"citation_title\"]" with
    | Except.error _ => none
    | Except.ok tc =>
      let title := match tc with | some c => PyField.str c | none => PyField.null
      let authors := (selectList soup ".authors a").map getText
      match metaContent soup "meta[name=\"citation_journal_title\"]" with
      | Except.error _ => none
      | Except.ok jc =>
        let journal := match jc with | some c => PyField.str c | none => PyField.str "arXiv preprint"
        match metaContent soup "meta[name=\"citation_date\"]" with
        | Except.error _ => none
        | Except.ok yc =>
          let year := match yc with | some c => PyField.str (pyTake c 4) | none => PyField.null
          match metaContent soup "meta[name=\"citation_doi\"]" with
          | Except.error _ => none
          | Except.ok dc =>
            let doi := match dc with | some c => PyField.str c | none => PyField.null
            if fieldTruthy title then
              some (Paper.mk (PyField.str url) "arxiv" title (some authors) journal year doi PyField.absent)
            else
              none

/-- `references/paper_search.search_academic_paper`: `paper_info` is
initialized with empty-string fields (and an empty author list) which
the platform branches conditionally overwrite. -/
def search_academic_paper (fetch : FetchDetail) (url platform : String) : Option Paper :=
  match fetch url with
  | Except.error _ => none
  | Except.ok soup =>
    if platform = "nih" then
      let title :=
        match selectOne soup "h1.title" with
        | some e => PyField.str (getText e)
        | none => PyField.str ""
      let authors :=
        match selectOne soup "div.authors" with
        | some e => (selectSub e "a").map pyStrip
        | none => []
      let journal :=
        match selectOne soup "span.journal-title" with
        | some e => PyField.str (getText e)
        | none => PyField.str ""
      let year :=
        match selectOne soup "span.publish-date" with
        | some e => PyField.str (pyTake (getText e) 4)
        | none => PyField.str ""
      some (Paper.mk (PyField.str url) platform title (some authors) journal year PyField.absent (PyField.str ""))
    else if platform = "hanspub" then
      let title :=
        match selectOne soup "div.ptitle" with
        | some e => PyField.str (getText e)
        | none => PyField.str ""
      let authors :=
        match selectOne soup "div.author" with
        | some e => (splitComma (pyReplace (getText e) "作者:" "")).map pyStrip
        | none => []
      match metaContent soup "meta[name=\"citation_journal_title\"]" with
      | Except.error _ => none
      | Except.ok jc =>
        let journal := match jc with | some c => PyField.str c | none => PyField.str ""
        some (Paper.mk (PyField.str url) platform title (some authors) journal (PyField.str "") PyField.absent (PyField.str ""))
    else if platform = "wikipedia" then
      match selectOne soup "h1.firstHeading" with
      | some e =>
        some (Paper.mk (PyField.str url) platform (PyField.str (getText e)) (some [])
          (PyField.str "Wikipedia") (PyField.str "2024") PyField.absent (PyField.str ""))
      | none =>
        some (Paper.mk (PyField.str url) platform (PyField.str "") (some [])
          (PyField.str "") (PyField.str "") PyField.absent (PyField.str ""))
    else
      some (Paper.mk (PyField.str url) platform (PyField.str "") (some [])
        (PyField.str "") (PyField.str "") PyField.absent (PyField.str ""))

/-- `references/paper_search.verify_reference`: passes iff `title` and
`url` are present and truthy. -/
def verify_reference (p : Paper) : Bool :=
  fieldTruthy p.title && fieldTruthy p.url

/-! ## `paper_searcher.generate_reference` -/

/-- `", ".join(paper.get('authors', [])) if paper.get('authors') else "未知作者"`. -/
def joinAuthors (a : Option (List String)) : String :=
  match a with
  | some l => if l.isEmpty then "未知作者" else String.intercalate ", " l
  | none => "未知作者"

/-- The part of the reference before any DOI or source-URL suffix:
`f"[序号] {authors}. {title}[J]. {journal}, {year}"`. -/
def refBase (p : Paper) : String :=
  "[序号] " ++ joinAuthors p.authors ++ ". " ++ fieldRender p.title "未知标题" ++
    "[J]. " ++ fieldRender p.journal "未知期刊" ++ ", " ++ fieldRender p.year "0000"

/-- The reference as built when the `doi` value is falsy (absent, `None`
or the empty string): the base, plus the source-URL line when `url` is
truthy. -/
def reference_without_doi (p : Paper) : String :=
  match fieldGetTruthy p.url with
  | some u => refBase p ++ "\nSourceURL: " ++ u
  | none => refBase p

/-- `paper_searcher.generate_reference`. -/
def generate_reference (p : Paper) : String :=
  let ref :=
    match fieldGetTruthy p.doi with
    | some d => refBase p ++ ". DOI: " ++ d
    | none => refBase p
  match fieldGetTruthy p.url with
  | some u => ref ++ "\nSourceURL: " ++ u
  | none => ref

/-! ## The deduplication loop of `thesis_paper_searcher.main` -/

/-- `paper.get('title', '').strip()`: an absent key falls back to `''`;
a stored `None` raises `AttributeError` on `.strip()` (modelled as
`none`). -/
def titleGet (p : Paper) : Option String :=
  match p.title with
  | .str s => some (pyStrip s)
  | .absent => some (pyStrip "")
  | .null => none

/-- The deduplication key a record would get: its trimmed title, with
`""` for a non-string title. -/
def dedupKey (p : Paper) : String :=
  match p.title with
  | .str s => pyStrip s
  | _ => ""

/-- The loop
`for paper in all_papers: title = paper.get('title','').strip();`
`if title and title not in seen_titles: seen_titles.add(title); unique_papers.append(paper)`
with `seen` the current `seen_titles` set; `none` models the
`AttributeError` raised on a `None` title. -/
def dedupeLoop (seen : List String) : List Paper → Option (List Paper)
  | [] => some []
  | p :: rest =>
    match titleGet p with
    | none => none
    | some t =>
      if t ≠ "" ∧ ¬ seen.contains t then
        (dedupeLoop (t :: seen) rest).map (fun l => p :: l)
      else
        dedupeLoop seen rest

/-- The whole deduplication pass of `main` (seen set starts empty). -/
def dedupe_papers (papers : List Paper) : Option (List Paper) :=
  dedupeLoop [] papers

/-! ## Helper lemmas -/

/-- A substring of `s` is a substring of `pre ++ s ++ post`. -/
lemma strContains_mono (pre post s pat : String) (h : strContains s pat) :
    strContains (pre ++ s ++ post) pat := by
  rcases h with ⟨l, r, hl⟩
  exact ⟨pre.data ++ l, r ++ post.data, by
    simp only [String.data_append, ← hl, List.append_assoc]⟩

/-- A substring of `s` is a substring of `s ++ t`. -/
lemma strContains_append_left (s t pat : String) (h : strContains s pat) :
    strContains (s ++ t) pat := by
  rcases h with ⟨l, r, hl⟩
  exact ⟨l, r ++ t.data, by simp only [String.data_append, ← hl, List.append_assoc]⟩

/-- The generic result loop equals a `take`-then-`filterMap`. -/
lemma foldl_append_filterMap {α β : Type} (f : α → Option β) (l : List α) (acc : List β) :
    List.foldl (appendStep f) acc l = acc ++ l.filterMap f := by
  induction l generalizing acc with
  | nil => simp
  | cons a t ih =>
    cases hfa : f a with
    | none => simp [List.foldl_cons, appendStep, hfa, ih, List.filterMap_cons]
    | some b => simp [List.foldl_cons, appendStep, hfa, ih, List.filterMap_cons]

/-- `filterMap` keeps the length when the function is total on the list. -/
lemma length_filterMap_of_isSome {α β : Type} (f : α → Option β) (l : List α)
    (h : ∀ x ∈ l, (f x).isSome) : (l.filterMap f).length = l.length := by
  induction l with
  | nil => rfl
  | cons a t ih =>
    have ha := h a (List.mem_cons_self a t)
    rcases Option.isSome_iff_exists.mp ha with ⟨b, hb⟩
    simp [List.filterMap_cons, hb, ih (fun x hx => h x (List.mem_cons_of_mem a hx))]

/-- `collectUrls` is the capped `filterMap` over the result containers:
its output is capped, is a document-order subsequence of the URLs of
all containers, and reaches the cap exactly when at least `cap`
containers each expose a usable link. -/
lemma collectUrls_spec (items : List Item) (cap : Nat) (linkSel absPrefix : String) :
    collectUrls items cap linkSel absPrefix
        = (items.take cap).filterMap (itemUrl linkSel absPrefix)
    ∧ (collectUrls items cap linkSel absPrefix).length ≤ cap
    ∧ List.Sublist (collectUrls items cap linkSel absPrefix)
        (items.filterMap (itemUrl linkSel absPrefix))
    ∧ ((∀ it ∈ items, (itemUrl linkSel absPrefix it).isSome) → cap ≤ items.length →
        (collectUrls items cap linkSel absPrefix).length = cap) := by
  have heq : collectUrls items cap linkSel absPrefix
      = (items.take cap).filterMap (itemUrl linkSel absPrefix) := by
    unfold collectUrls
    simpa using foldl_append_filterMap (itemUrl linkSel absPrefix) (items.take cap) []
  refine ⟨heq, ?_, ?_, ?_⟩
  · rw [heq]
    calc ((items.take cap).filterMap (itemUrl linkSel absPrefix)).length
        ≤ (items.take cap).length := List.length_filterMap_le _ _
      _ ≤ cap := List.length_take_le cap items
  · rw [heq]
    exact List.Sublist.filterMap _ (List.take_sublist cap items)
  · intro hall hcap
    rw [heq]
    rw [length_filterMap_of_isSome _ _
      (fun x hx => hall x ((List.take_sublist cap items).subset hx))]
    simp [List.length_take, Nat.min_eq_left hcap]

/-- The result-page selectors each platform branch of `search_papers`
uses: container selector, link selector, absolutizing URL origin. -/
def resultSelectors (platform : String) : String × String × String :=
  if platform = "cnki" then (".result-list li", "a", "")
  else if platform = "wanfang" then (".search-list li", "a", "")
  else if platform = "cqvip" then (".result-list li", "a", "")
  else if platform = "arxiv" then (".list-lst", ".title a", "https://arxiv.org")
  else (".work", "a", "https://openalex.org")

/-- On a supported platform with a fetched page, `search_papers`
returns exactly the capped link collection of its branch. -/
lemma search_papers_ok (fetch : FetchSearch) (keyword platform : String) (cap : Nat)
    (soup : SearchDoc) (hp : supportedPlatforms.contains platform = true)
    (hfetch : fetch (searchUrl platform keyword cap) = Except.ok soup) :
    search_papers fetch keyword platform cap =
      (Except.ok (collectUrls (selectList soup (resultSelectors platform).fst) cap
        (resultSelectors platform).snd.fst (resultSelectors platform).snd.snd),
       [searchUrl platform keyword cap]) := by
  have hmem : platform ∈ supportedPlatforms := by
    simpa [List.contains_iff_exists_mem_beq] using hp
  simp only [supportedPlatforms, List.mem_cons, List.not_mem_nil, or_false] at hmem
  rcases hmem with rfl | rfl | rfl | rfl | rfl <;>
    simp [search_papers, resultSelectors, supportedPlatforms, hfetch]

/-! ## Deduplication lemmas -/

/-- The string the dedup loop reads for a record agrees with
`dedupKey`. -/
lemma titleGet_eq {p : Paper} {t : String} (h : titleGet p = some t) : t = dedupKey p := by
  cases hp : p.title <;> simp [titleGet, hp, dedupKey] at h ⊢ <;> simp [h.symm, pyStrip]

/-- Successful runs of the dedup loop produce a subsequence of the
input. -/
lemma dedupeLoop_sublist (ps : List Paper) : ∀ seen res, dedupeLoop seen ps = some res →
    List.Sublist res ps := by
  induction ps with
  | nil =>
    intro seen res h
    simp only [dedupeLoop, Option.some.injEq] at h
    subst h
    exact List.Sublist.slnil
  | cons x rest ih =>
    intro seen res h
    cases htg : titleGet x with
    | none => simp [dedupeLoop, htg] at h
    | some t =>
      simp only [dedupeLoop, htg] at h
      by_cases hc : t ≠ "" ∧ ¬ seen.contains t
      · rw [if_pos hc] at h
        cases hres : dedupeLoop (t :: seen) rest with
        | none => rw [hres] at h; simp at h
        | some res' =>
          rw [hres] at h
          simp only [Option.map_some', Option.some.injEq] at h
          subst h
          exact List.Sublist.cons₂ x (ih _ _ hres)
      · rw [if_neg hc] at h
        exact List.Sublist.cons x (ih _ _ h)

/-- Every record the dedup loop keeps has a non-empty trimmed title,
a key not already seen, and is the *first* record of the input with its
key. -/
lemma dedupeLoop_mem (ps : List Paper) : ∀ seen res, dedupeLoop seen ps = some res →
    ∀ p ∈ res, dedupKey p ≠ "" ∧ seen.contains (dedupKey p) = false ∧
      ps.find? (fun q => dedupKey q == dedupKey p) = some p := by
  induction ps with
  | nil =>
    intro seen res h p hp
    simp only [dedupeLoop, Option.some.injEq] at h
    subst h
    simp at hp
  | cons x rest ih =>
    intro seen res h p hp
    cases htg : titleGet x with
    | none => simp [dedupeLoop, htg] at h
    | some t =>
      have ht : t = dedupKey x := titleGet_eq htg
      simp only [dedupeLoop, htg] at h
      by_cases hc : t ≠ "" ∧ ¬ seen.contains t
      · rw [if_pos hc] at h
        cases hres : dedupeLoop (t :: seen) rest with
        | none => rw [hres] at h; simp at h
        | some res' =>
          rw [hres] at h
          simp only [Option.map_some', Option.some.injEq] at h
          subst h
          rcases List.mem_cons.mp hp with rfl | hp'
          · refine ⟨ht ▸ hc.1, ?_, ?_⟩
            · rw [← ht]
              cases hb : seen.contains t
              · rfl
              · exact absurd hb hc.2
            · exact List.find?_cons_of_pos _ (by simp)
          · obtain ⟨hk1, hk2, hk3⟩ := ih _ _ hres p hp'
            have hkx : dedupKey p ≠ t := by
              intro hEq
              rw [hEq] at hk2
              simp at hk2
            have hseen : seen.contains (dedupKey p) = false := by
              simp [List.contains_cons] at hk2
              cases hb : seen.contains (dedupKey p)
              · rfl
              · exact absurd hb (by simp [hk2.2])
            have hxp : dedupKey x ≠ dedupKey p := fun hEq => hkx (hEq.symm.trans ht.symm)
            refine ⟨hk1, hseen, ?_⟩
            rw [List.find?_cons_of_neg _ (by simp [hxp])]
            exact hk3
      · rw [if_neg hc] at h
        obtain ⟨hk1, hk2, hk3⟩ := ih _ _ h p hp
        have hkx : dedupKey x ≠ dedupKey p := by
          intro hEq
          exact hc (by
            rw [ht, hEq]
            exact ⟨hk1, fun hcon => by rw [hk2] at hcon; exact Bool.noConfusion hcon⟩)
        refine ⟨hk1, hk2, ?_⟩
        rw [List.find?_cons_of_neg _ (by simp [hkx])]
        exact hk3

/-- Every record of the input with a non-empty unseen key is
represented in the output of the dedup loop. -/
lemma dedupeLoop_cover (ps : List Paper) : ∀ seen res, dedupeLoop seen ps = some res →
    ∀ p ∈ ps, dedupKey p ≠ "" → seen.contains (dedupKey p) = false →
      ∃ q, q ∈ res ∧ dedupKey q = dedupKey p := by
  induction ps with
  | nil =>
    intro seen res h p hp
    simp at hp
  | cons x rest ih =>
    intro seen res h p hp hk hseen
    cases htg : titleGet x with
    | none => simp [dedupeLoop, htg] at h
    | some t =>
      have ht : t = dedupKey x := titleGet_eq htg
      simp only [dedupeLoop, htg] at h
      by_cases hc : t ≠ "" ∧ ¬ seen.contains t
      · rw [if_pos hc] at h
        cases hres : dedupeLoop (t :: seen) rest with
        | none => rw [hres] at h; simp at h
        | some res' =>
          rw [hres] at h
          simp only [Option.map_some', Option.some.injEq] at h
          subst h
          rcases List.mem_cons.mp hp with rfl | hp'
          · exact ⟨p, List.mem_cons_self _ _, rfl⟩
          · by_cases hxk : dedupKey p = t
            · exact ⟨x, List.mem_cons_self _ _, by rw [← ht, hxk]⟩
            · have hseen' : (t :: seen).contains (dedupKey p) = false := by
                rw [List.contains_cons, hseen, Bool.or_false]
                exact beq_eq_false_iff_ne.mpr hxk
              obtain ⟨q, hq1, hq2⟩ := ih _ _ hres p hp' hk hseen'
              exact ⟨q, List.mem_cons_of_mem _ hq1, hq2⟩
      · rw [if_neg hc] at h
        rcases List.mem_cons.mp hp with rfl | hp'
        · rcases not_and_or.mp hc with hct | hcs
          · push_neg at hct
            exact absurd (by rw [← ht, hct]) hk
          · push_neg at hcs
            rw [ht] at hcs
            rw [hcs] at hseen
            exact Bool.noConfusion hseen
        · exact ih _ _ h p hp' hk hseen

/-- The kept records have pairwise distinct dedup keys. -/
lemma dedupeLoop_pairwise (ps : List Paper) : ∀ seen res, dedupeLoop seen ps = some res →
    res.Pairwise (fun a b => dedupKey a ≠ dedupKey b) := by
  induction ps with
  | nil =>
    intro seen res h
    simp only [dedupeLoop, Option.some.injEq] at h
    subst h
    exact List.Pairwise.nil
  | cons x rest ih =>
    intro seen res h
    cases htg : titleGet x with
    | none => simp [dedupeLoop, htg] at h
    | some t =>
      have ht : t = dedupKey x := titleGet_eq htg
      simp only [dedupeLoop, htg] at h
      by_cases hc : t ≠ "" ∧ ¬ seen.contains t
      · rw [if_pos hc] at h
        cases hres : dedupeLoop (t :: seen) rest with
        | none => rw [hres] at h; simp at h
        | some res' =>
          rw [hres] at h
          simp only [Option.map_some', Option.some.injEq] at h
          subst h
          refine List.Pairwise.cons ?_ (ih _ _ hres)
          intro b hb
          obtain ⟨_, hk2, _⟩ := dedupeLoop_mem rest _ _ hres b hb
          intro hEq
          rw [← hEq, ← ht] at hk2
          simp [List.contains_cons] at hk2
      · rw [if_neg hc] at h
        exact ih _ _ h

/-! ## Concrete fixtures -/

/-- A result container exposing one usable link. -/
def linkedItem (u : String) : Item := [("a", [Link.mk (some u)])]

/-- A result container whose link has no `href`. -/
def bareItem : Item := [("a", [Link.mk none])]

/-- A cnki search page with six containers, the first without a usable
link. -/
def c10doc : SearchDoc :=
  [(".result-list li",
    [bareItem, linkedItem "u1", linkedItem "u2", linkedItem "u3", linkedItem "u4", linkedItem "u5"])]

/-- Fetch oracle always returning `c10doc`. -/
def c10fetch : FetchSearch := fun _ => Except.ok c10doc

/-- A cnki search page with twenty containers, each with a usable
link. -/
def c5doc : SearchDoc :=
  [(".result-list li", (List.range 20).map (fun i => linkedItem (toString i)))]

/-- Fetch oracle always returning `c5doc`. -/
def c5fetch : FetchSearch := fun _ => Except.ok c5doc

/-- Record A of the dedup example: title "Graph Theory". -/
def paperA : Paper :=
  Paper.mk (PyField.str "uA") "cnki" (PyField.str "Graph Theory") (some [])
    PyField.absent PyField.absent PyField.absent PyField.absent

/-- Record B of the dedup example: title "graph   theory". -/
def paperB : Paper :=
  Paper.mk (PyField.str "uB") "cnki" (PyField.str "graph   theory") (some [])
    PyField.absent PyField.absent PyField.absent PyField.absent

/-- Record C of the dedup example: title "Other". -/
def paperC : Paper :=
  Paper.mk (PyField.str "uC") "cnki" (PyField.str "Other") (some [])
    PyField.absent PyField.absent PyField.absent PyField.absent

/-- An empty-titled record at url `u1`. -/
def paperE1 : Paper :=
  Paper.mk (PyField.str "u1") "cnki" (PyField.str "") (some [])
    PyField.absent PyField.absent PyField.absent PyField.absent

/-- An empty-titled record at url `u2`. -/
def paperE2 : Paper :=
  Paper.mk (PyField.str "u2") "cnki" (PyField.str "") (some [])
    PyField.absent PyField.absent PyField.absent PyField.absent

/-! ## Claims about the Search Resolver -/

/-- C8 (confirmed): for every keyword, cap and fetch oracle, calling
`search_papers` with a platform outside `supportedPlatforms` returns
the `Unsupported platform` `ValueError` with an empty fetch log: the
error is raised before any network activity and is fatal to the call
(nothing is retried or recovered). -/
theorem search_papers_unsupported_platform (fetch : FetchSearch) (keyword platform : String)
    (cap : Nat) (h : supportedPlatforms.contains platform = false) :
    search_papers fetch keyword platform cap =
      (Except.error ("Unsupported platform: " ++ platform), []) := by
  have hneg : ¬ supportedPlatforms.contains platform = true := by
    rw [h]
    exact Bool.noConfusion
  unfold search_papers
  rw [if_neg hneg]

/-- C8 witness: the platform "pubmed" is rejected without a fetch. -/
theorem search_papers_unsupported_platform_witness :
    search_papers (fun _ => Except.error ()) "deep learning" "pubmed" 5 =
      (Except.error ("Unsupported platform: " ++ "pubmed"), []) :=
  search_papers_unsupported_platform _ "deep learning" "pubmed" 5 (by decide)

/-- C10 (confirmed): `search_papers` applies the result cap to the
container elements before checking each for a usable link, so a page
(`c10doc`) exposing five usable links overall yields only four URLs at
`max_results = 5`: the link of the sixth container is silently lost
because the first capped container has no usable `href`. -/
theorem search_papers_cap_before_link_check :
    5 ≤ ((selectList c10doc ".result-list li").filterMap (itemUrl "a" "")).length
    ∧ (search_papers c10fetch "kw" "cnki" 5).1 = Except.ok ["u1", "u2", "u3", "u4"]
    ∧ (["u1", "u2", "u3", "u4"] : List String).length < 5 :=
  ⟨by decide, rfl, by decide⟩

/-- C5 (confirmed): on every supported platform and fetched search
page, `search_papers` succeeds and returns the capped link collection:
at most `cap` URLs, a document-order subsequence of all the page's
container links, and exactly `cap` URLs whenever at least `cap`
containers each expose a usable link (as on a page listing twenty
results); truncation never raises. -/
theorem search_papers_cap_honored (fetch : FetchSearch) (keyword platform : String) (cap : Nat)
    (soup : SearchDoc) (hp : supportedPlatforms.contains platform = true)
    (hfetch : fetch (searchUrl platform keyword cap) = Except.ok soup) :
    (search_papers fetch keyword platform cap).1 =
      Except.ok (collectUrls (selectList soup (resultSelectors platform).fst) cap
        (resultSelectors platform).snd.fst (resultSelectors platform).snd.snd)
    ∧ (collectUrls (selectList soup (resultSelectors platform).fst) cap
        (resultSelectors platform).snd.fst (resultSelectors platform).snd.snd).length ≤ cap
    ∧ List.Sublist
        (collectUrls (selectList soup (resultSelectors platform).fst) cap
          (resultSelectors platform).snd.fst (resultSelectors platform).snd.snd)
        ((selectList soup (resultSelectors platform).fst).filterMap
          (itemUrl (resultSelectors platform).snd.fst (resultSelectors platform).snd.snd))
    ∧ ((∀ it ∈ selectList soup (resultSelectors platform).fst,
          (itemUrl (resultSelectors platform).snd.fst (resultSelectors platform).snd.snd it).isSome) →
        cap ≤ (selectList soup (resultSelectors platform).fst).length →
        (collectUrls (selectList soup (resultSelectors platform).fst) cap
          (resultSelectors platform).snd.fst (resultSelectors platform).snd.snd).length = cap) := by
  obtain ⟨-, h2, h3, h4⟩ := collectUrls_spec (selectList soup (resultSelectors platform).fst) cap
    (resultSelectors platform).snd.fst (resultSelectors platform).snd.snd
  exact ⟨by rw [search_papers_ok fetch keyword platform cap soup hp hfetch], h2, h3, h4⟩

/-- C5 witness: a cnki page with twenty linked containers and cap 5
yields exactly five URLs. -/
theorem search_papers_cap_honored_witness :
    (collectUrls (selectList c5doc (resultSelectors "cnki").fst) 5
      (resultSelectors "cnki").snd.fst (resultSelectors "cnki").snd.snd).length = 5 :=
  (search_papers_cap_honored c5fetch "kw" "cnki" 5 c5doc (by decide) rfl).2.2.2
    (by decide) (by decide)

/-! ## Claims about the Deduplicator -/

/-- C1 counterexample: the dedup loop of `thesis_paper_searcher.main`
compares *exact* trimmed titles — no whitespace collapsing, no case
folding — so B (title "graph   theory") is NOT dropped as a duplicate
of A (title "Graph Theory"): `dedupe([A, B, C])` is `[A, B, C]`, not
the `[A, C]` the claim asserts. -/
theorem dedupe_normalization_counterexample :
    dedupe_papers [paperA, paperB, paperC] = some [paperA, paperB, paperC]
    ∧ ([paperA, paperB, paperC] : List Paper) ≠ [paperA, paperC]
    ∧ dedupKey paperA ≠ dedupKey paperB := by decide

/-- C1 (corrected): deduplication keys records by the *exactly
trimmed* title and keeps the first-seen record of each key: whenever
the loop completes, the output is a first-seen-order subsequence of
the input in which every kept record is the first input record bearing
its trimmed-title key, every non-empty key of the input is
represented, and kept keys are pairwise distinct. -/
theorem dedupe_trimmed_key_first_seen (ps res : List Paper) (h : dedupe_papers ps = some res) :
    List.Sublist res ps
    ∧ (∀ p ∈ res, dedupKey p ≠ "" ∧ List.find? (fun q => dedupKey q == dedupKey p) ps = some p)
    ∧ (∀ p ∈ ps, dedupKey p ≠ "" → ∃ q, q ∈ res ∧ dedupKey q = dedupKey p)
    ∧ res.Pairwise (fun a b => dedupKey a ≠ dedupKey b) := by
  refine ⟨dedupeLoop_sublist ps [] res h, ?_, ?_, dedupeLoop_pairwise ps [] res h⟩
  · intro p hp
    obtain ⟨h1, _, h3⟩ := dedupeLoop_mem ps [] res h p hp
    exact ⟨h1, h3⟩
  · intro p hp hk
    exact dedupeLoop_cover ps [] res h p hp hk rfl

/-- C1 witness: on the claim's `[A, B, C]` the loop completes with all
three records kept, whose keys are pairwise distinct. -/
theorem dedupe_trimmed_key_first_seen_witness :
    ([paperA, paperB, paperC] : List Paper).Pairwise (fun a b => dedupKey a ≠ dedupKey b) :=
  (dedupe_trimmed_key_first_seen [paperA, paperB, paperC] [paperA, paperB, paperC]
    (by decide)).2.2.2

/-- C3 counterexample: two records with empty titles are BOTH dropped
by the dedup loop (`if title` fails), not both kept as the claim
asserts: the output is `[]`. -/
theorem dedupe_empty_title_counterexample :
    dedupe_papers [paperE1, paperE2] = some []
    ∧ ([] : List Paper) ≠ [paperE1, paperE2] := by decide

/-- C3 (corrected): records whose trimmed title is empty are never
merged with each other, but neither are they kept: the `if title`
guard drops every one of them, so no record of the output has an empty
dedup key. -/
theorem dedupe_drops_empty_titles (ps res : List Paper) (h : dedupe_papers ps = some res) :
    ∀ p ∈ res, dedupKey p ≠ "" :=
  fun p hp => (dedupeLoop_mem ps [] res h p hp).1

/-- C3 witness: on `[C, E1]` the loop keeps only C, whose key is
non-empty. -/
theorem dedupe_drops_empty_titles_witness : dedupKey paperC ≠ "" :=
  dedupe_drops_empty_titles [paperC, paperE1] [paperC] (by decide) paperC (by decide)

/-! ## Claims about the Detail Extractor -/

/-- Fetch oracle returning an empty detail page (no selector matches). -/
def emptyDetailFetch : FetchDetail := fun _ => Except.ok []

/-- The record `get_paper_details` builds from an empty cnki page. -/
def c2paper : Paper :=
  Paper.mk (PyField.str "http://x") "cnki" PyField.null (some [])
    PyField.null PyField.absent PyField.null PyField.absent

/-- C2 counterexample: on a detail page where no title selector
matches, `paper_searcher.get_paper_details` does NOT fail — it returns
a record whose `title` is `None`, contrary to the claimed
`Failure(NoTitle)` behaviour (only the thesis-script extractors fail
in that situation). -/
theorem get_paper_details_null_title_counterexample :
    get_paper_details emptyDetailFetch "http://x" "cnki" = some c2paper
    ∧ c2paper.title = PyField.null
    ∧ fieldTruthy c2paper.title = false := by decide

/-- C2 (corrected): the thesis-script extractors
(`get_cnki_paper_details`, `get_arxiv_paper_details`) indeed return a
failure rather than a record whenever the title is absent or empty,
and the Verifier passes a record only if its title is a non-empty
string — so `verify(extract(u, p))` implies a non-empty title even
though `get_paper_details` itself may return a title-less record. -/
theorem extract_verify_title_nonempty (fetch : FetchDetail) (u : String) (p : Paper) :
    (get_cnki_paper_details fetch u = some p → fieldTruthy p.title = true)
    ∧ (get_arxiv_paper_details fetch u = some p → fieldTruthy p.title = true)
    ∧ (verify_reference p = true → fieldTruthy p.title = true) := by
  refine ⟨?_, ?_, ?_⟩
  · intro h
    cases hf : fetch u with
    | error e => simp [get_cnki_paper_details, hf] at h
    | ok soup =>
      simp only [get_cnki_paper_details, hf] at h
      cases hm : metaContent soup "meta[name=\"citation_doi\"]" with
      | error e =>
        simp only [hm] at h
        exact Option.noConfusion h
      | ok dc =>
        simp only [hm] at h
        split at h
        next hT =>
          simp only [Option.some.injEq] at h
          subst h
          exact hT
        next hT => exact Option.noConfusion h
  · intro h
    cases hf : fetch u with
    | error e => simp [get_arxiv_paper_details, hf] at h
    | ok soup =>
      simp only [get_arxiv_paper_details, hf] at h
      cases h1 : metaContent soup "meta[name=\"citation_title\"]" with
      | error e =>
        simp only [h1] at h
        exact Option.noConfusion h
      | ok tc =>
        simp only [h1] at h
        cases h2 : metaContent soup "meta[name=\"citation_journal_title\"]" with
        | error e =>
          simp only [h2] at h
          exact Option.noConfusion h
        | ok jc =>
          simp only [h2] at h
          cases h3 : metaContent soup "meta[name=\"citation_date\"]" with
          | error e =>
            simp only [h3] at h
            exact Option.noConfusion h
          | ok yc =>
            simp only [h3] at h
            cases h4 : metaContent soup "meta[name=\"citation_doi\"]" with
            | error e =>
              simp only [h4] at h
              exact Option.noConfusion h
            | ok dc =>
              simp only [h4] at h
              split at h
              next hT =>
                simp only [Option.some.injEq] at h
                subst h
                exact hT
              next hT => exact Option.noConfusion h
  · intro h
    simp only [verify_reference, Bool.and_eq_true] at h
    exact h.1

/-- Detail page carrying a title for the C2 witness. -/
def c2doc : DetailDoc := [("#mainTitle", [Elem.mk "Deep Title" [] []])]

/-- Fetch oracle returning `c2doc`. -/
def c2fetch : FetchDetail := fun _ => Except.ok c2doc

/-- The record `get_cnki_paper_details` builds from `c2doc`. -/
def c2w : Paper :=
  Paper.mk (PyField.str "u") "cnki" (PyField.str "Deep Title") (some [])
    PyField.null PyField.absent PyField.null PyField.absent

/-- C2 witness: a successfully extracted cnki record has a truthy
title. -/
theorem extract_verify_title_nonempty_witness : fieldTruthy c2w.title = true :=
  (extract_verify_title_nonempty c2fetch "u" c2w).1 (by decide)

/-- The record `search_academic_paper` builds from an empty nih page. -/
def c4paper : Paper :=
  Paper.mk (PyField.str "http://x") "nih" (PyField.str "") (some [])
    (PyField.str "") (PyField.str "") PyField.absent (PyField.str "")

/-- C4 counterexample: in `references/paper_search.search_academic_paper`
a field whose selectors all miss is an empty STRING — not an absent or
null value — so absence and empty string are not distinguishable in
its output. -/
theorem search_academic_paper_empty_string_counterexample :
    search_academic_paper emptyDetailFetch "http://x" "nih" = some c4paper
    ∧ c4paper.title = PyField.str ""
    ∧ PyField.str "" ≠ PyField.absent
    ∧ PyField.str "" ≠ PyField.null := by decide

/-- C4 (corrected): `get_paper_details` does leave a selector-less
field absent — `None`-valued for title/journal/doi, key omitted for
year — never an empty string; but `search_academic_paper` initializes
title/journal/year to `""` and leaves them so when no selector
matches. -/
theorem missing_field_representation (fetch : FetchDetail) (u : String) (soup : DetailDoc)
    (p q : Paper)
    (hf : fetch u = Except.ok soup)
    (hp : get_paper_details fetch u "cnki" = some p)
    (hq : search_academic_paper fetch u "nih" = some q)
    (ht1 : selectOne soup "#mainTitle" = none) (ht2 : selectOne soup "h1.title" = none)
    (hj1 : selectOne soup ".journal-name" = none) (hj2 : selectOne soup ".journal" = none)
    (hy1 : selectOne soup ".publish-date" = none) (hy2 : selectOne soup ".year" = none)
    (hd : selectOne soup "meta[name=\"citation_doi\"]" = none)
    (hqj : selectOne soup "span.journal-title" = none)
    (hqy : selectOne soup "span.publish-date" = none) :
    (p.title = PyField.null ∧ p.journal = PyField.null
      ∧ p.year = PyField.absent ∧ p.doi = PyField.null)
    ∧ (q.title = PyField.str "" ∧ q.journal = PyField.str "" ∧ q.year = PyField.str "") := by
  have hm : metaContent soup "meta[name=\"citation_doi\"]" = Except.ok none := by
    simp [metaContent, hd]
  simp [get_paper_details, hf, selectFirst, ht1, ht2, hj1, hj2, hy1, hy2, hm] at hp
  simp [search_academic_paper, hf, ht2, hqj, hqy] at hq
  subst hp
  subst hq
  exact ⟨⟨rfl, rfl, rfl, rfl⟩, ⟨rfl, rfl, rfl⟩⟩

/-- C4 witness: the two extractors applied to an empty page. -/
theorem missing_field_representation_witness :
    (c2paper.title = PyField.null ∧ c2paper.journal = PyField.null
      ∧ c2paper.year = PyField.absent ∧ c2paper.doi = PyField.null)
    ∧ (c4paper.title = PyField.str "" ∧ c4paper.journal = PyField.str ""
      ∧ c4paper.year = PyField.str "") :=
  missing_field_representation emptyDetailFetch "http://x" [] c2paper c4paper rfl
    (by decide) (by decide) rfl rfl rfl rfl rfl rfl rfl rfl rfl

/-- The `.publish-date` node of the C9 pages. -/
def c9elem : Elem := Elem.mk "pub-2020-01" [] []

/-- A cnki detail page with only a publish date. -/
def c9doc : DetailDoc := [(".publish-date", [c9elem])]

/-- Fetch oracle returning `c9doc`. -/
def c9fetch : FetchDetail := fun _ => Except.ok c9doc

/-- The record `get_paper_details` builds from `c9doc`. -/
def c9paper : Paper :=
  Paper.mk (PyField.str "u") "cnki" PyField.null (some [])
    PyField.null (PyField.str "pub-") PyField.null PyField.absent

/-- C9 counterexample: the `.publish-date` text "pub-2020-01" embeds
the four-digit run "2020", yet `paper_searcher.get_paper_details`
extracts the year "pub-" — its cnki branch always takes the first four
characters and never searches for a digit run, contrary to the
claim. -/
theorem year_first_four_chars_counterexample :
    reSearchFourDigits "pub-2020-01" = some "2020"
    ∧ get_paper_details c9fetch "u" "cnki" = some c9paper
    ∧ c9paper.year = PyField.str "pub-"
    ∧ PyField.str "pub-" ≠ PyField.str "2020" := by decide

/-- C9 (corrected): when a year selector matches, the thesis script's
cnki extractor stores the first embedded four-digit run of the trimmed
text, falling back to its first four characters; but
`paper_searcher.get_paper_details` always stores the first four
characters of the trimmed text (the whole text when shorter),
regardless of any digit run. -/
theorem year_extraction_behavior (fetch fetch2 : FetchDetail) (u u2 : String)
    (soup soup2 : DetailDoc) (e e2 : Elem) (p p2 : Paper)
    (h1 : fetch u = Except.ok soup) (h2 : selectOne soup ".publish-date" = some e)
    (h3 : get_cnki_paper_details fetch u = some p)
    (h4 : fetch2 u2 = Except.ok soup2) (h5 : selectOne soup2 ".publish-date" = some e2)
    (h6 : get_paper_details fetch2 u2 "cnki" = some p2) :
    p.year = PyField.str (cnki_year_thesis (getText e))
    ∧ p2.year = PyField.str (cnki_year_ps (getText e2))
    ∧ (∀ run, reSearchFourDigits (getText e) = some run → cnki_year_thesis (getText e) = run)
    ∧ (reSearchFourDigits (getText e) = none →
        cnki_year_thesis (getText e) = pyTake (getText e) 4) := by
  refine ⟨?_, ?_, ?_, ?_⟩
  · simp only [get_cnki_paper_details, h1, h2] at h3
    cases hm : metaContent soup "meta[name=\"citation_doi\"]" with
    | error err =>
      simp only [hm] at h3
      exact Option.noConfusion h3
    | ok dc =>
      simp only [hm] at h3
      split at h3
      next hT =>
        simp only [Option.some.injEq] at h3
        subst h3
        rfl
      next hT => exact Option.noConfusion h3
  · simp only [get_paper_details, h4, selectFirst, h5] at h6
    cases hm : metaContent soup2 "meta[name=\"citation_doi\"]" with
    | error err =>
      simp only [hm] at h6
      exact Option.noConfusion h6
    | ok dc =>
      simp [hm] at h6
      subst h6
      rfl
  · intro run hr
    simp [cnki_year_thesis, hr]
  · intro hr
    simp [cnki_year_thesis, hr]

/-- Detail page with both a title and a publish date. -/
def c9wdoc : DetailDoc :=
  [("#mainTitle", [Elem.mk "T" [] []]), (".publish-date", [c9elem])]

/-- Fetch oracle returning `c9wdoc`. -/
def c9wfetch : FetchDetail := fun _ => Except.ok c9wdoc

/-- The record `get_cnki_paper_details` builds from `c9wdoc`. -/
def c9wpaper : Paper :=
  Paper.mk (PyField.str "u") "cnki" (PyField.str "T") (some [])
    PyField.null (PyField.str "2020") PyField.null PyField.absent

/-- C9 witness: the two extractors on pages with a matching
`.publish-date`. -/
theorem year_extraction_behavior_witness :
    c9wpaper.year = PyField.str (cnki_year_thesis (getText c9elem))
    ∧ c9paper.year = PyField.str (cnki_year_ps (getText c9elem)) := by
  obtain ⟨w1, w2, -, -⟩ := year_extraction_behavior c9wfetch c9fetch "u" "u" c9wdoc c9doc
    c9elem c9elem c9wpaper c9paper rfl (by decide) (by decide) rfl (by decide) (by decide)
  exact ⟨w1, w2⟩

/-! ## Claims about the Citation Formatter -/

/-- Any substring of the base reference survives in the full
reference, whatever the DOI and URL suffixes are. -/
lemma gen_ref_extends (p : Paper) (pat : String) (h : strContains (refBase p) pat) :
    strContains (generate_reference p) pat := by
  cases hd : fieldGetTruthy p.doi <;> cases hu : fieldGetTruthy p.url <;>
    simp only [generate_reference, hd, hu] <;>
    repeat
      first
        | exact h
        | apply strContains_append_left

/-- The rendered title occurs in the base reference. -/
lemma strContains_refBase_title (p : Paper) :
    strContains (refBase p) (fieldRender p.title "未知标题") := by
  refine ⟨("[序号] " ++ joinAuthors p.authors ++ ". ").data,
    ("[J]. " ++ fieldRender p.journal "未知期刊" ++ ", " ++ fieldRender p.year "0000").data, ?_⟩
  simp only [refBase, String.data_append, List.append_assoc]

/-- The rendered author list occurs in the base reference. -/
lemma strContains_refBase_authors (p : Paper) :
    strContains (refBase p) (joinAuthors p.authors) := by
  refine ⟨"[序号] ".data,
    (". " ++ fieldRender p.title "未知标题" ++ "[J]. " ++ fieldRender p.journal "未知期刊"
      ++ ", " ++ fieldRender p.year "0000").data, ?_⟩
  simp only [refBase, String.data_append, List.append_assoc]

/-- A record with no DOI value but a title that itself carries the text
"DOI:". -/
def c6paper : Paper :=
  Paper.mk PyField.absent "cnki" (PyField.str "Understanding DOI: resolution") (some [])
    PyField.absent PyField.absent PyField.absent PyField.absent

/-- C6 counterexample: for a record whose `doi` is absent the
formatted string can still contain the substring "DOI:" — here it is
carried by the title — so the claimed absence of "DOI:" does not hold
for every record. -/
theorem generate_reference_doi_substring_counterexample :
    fieldGetTruthy c6paper.doi = none
    ∧ strContains (generate_reference c6paper) "DOI:" := by decide

/-- C6 (corrected): when `doi` is a present non-empty string `d`, the
formatted reference contains "DOI: d"; when `doi` is falsy (absent,
null or empty) the formatter appends no DOI segment — the output is
exactly the DOI-free rendering, which contains "DOI:" only if some
other field carries that text itself; when `url` is present and
non-empty, a "SourceURL: u" line is appended. -/
theorem generate_reference_doi_round_trip (p : Paper) :
    (∀ d, fieldGetTruthy p.doi = some d →
      strContains (generate_reference p) ("DOI: " ++ d))
    ∧ (fieldGetTruthy p.doi = none → generate_reference p = reference_without_doi p)
    ∧ (∀ u, fieldGetTruthy p.url = some u →
        strContains (generate_reference p) ("SourceURL: " ++ u)) := by
  refine ⟨?_, ?_, ?_⟩
  · intro d hd
    cases hu : fieldGetTruthy p.url with
    | none =>
      simp only [generate_reference, hd, hu]
      refine ⟨(refBase p).data ++ ". ".data, [], ?_⟩
      simp only [String.data_append, List.append_assoc, List.append_nil]
      rfl
    | some u =>
      simp only [generate_reference, hd, hu]
      refine ⟨(refBase p).data ++ ". ".data, ("\nSourceURL: " ++ u).data, ?_⟩
      simp only [String.data_append, List.append_assoc]
      rfl
  · intro h
    simp only [generate_reference, reference_without_doi, h]
  · intro u hu
    cases hd : fieldGetTruthy p.doi with
    | none =>
      simp only [generate_reference, hd, hu]
      refine ⟨(refBase p).data ++ "\n".data, [], ?_⟩
      simp only [String.data_append, List.append_assoc, List.append_nil]
      rfl
    | some d =>
      simp only [generate_reference, hd, hu]
      refine ⟨(refBase p ++ ". DOI: " ++ d).data ++ "\n".data, [], ?_⟩
      simp only [String.data_append, List.append_assoc, List.append_nil]
      rfl

/-- A fully populated record for the C6 witness. -/
def c6wpaper : Paper :=
  Paper.mk (PyField.str "http://u") "cnki" (PyField.str "T") (some ["A"])
    (PyField.str "J") (PyField.str "2020") (PyField.str "10.1/xyz") PyField.absent

/-- C6 witness: both the DOI segment and the SourceURL line appear for
a record carrying both fields. -/
theorem generate_reference_doi_round_trip_witness :
    strContains (generate_reference c6wpaper) ("DOI: " ++ "10.1/xyz")
    ∧ strContains (generate_reference c6wpaper) ("SourceURL: " ++ "http://u") :=
  ⟨(generate_reference_doi_round_trip c6wpaper).1 "10.1/xyz" (by decide),
   (generate_reference_doi_round_trip c6wpaper).2.2 "http://u" (by decide)⟩

/-- A record whose title key holds `None`, as `get_paper_details`
produces when no title selector matches. -/
def c7paper : Paper :=
  Paper.mk PyField.absent "cnki" PyField.null (some [])
    PyField.absent PyField.absent PyField.absent PyField.absent

/-- C7 counterexample: when the title field holds the extractor's
`None` (its representation of a missing title), the formatter renders
the literal text "None", not the "未知标题" placeholder — the
placeholder only fires when the key is absent from the dict. -/
theorem generate_reference_null_renders_none_counterexample :
    c7paper.title = PyField.null
    ∧ generate_reference c7paper = "[序号] 未知作者. None[J]. 未知期刊, 0000"
    ∧ ¬ strContains (generate_reference c7paper) "未知标题" := by decide

/-- C7 (corrected): the formatter is total — missing-or-empty authors
render as the "未知作者" placeholder, and title/journal/year render
their fixed placeholders when the key is omitted from the record; but
when a field holds a stored `None` (the extractors' representation of
"not found"), the formatter renders the text "None" instead of the
placeholder.  The rendered title and author strings always occur in
the output. -/
theorem generate_reference_placeholders (p : Paper) :
    (p.authors = none ∨ p.authors = some [] → joinAuthors p.authors = "未知作者")
    ∧ (p.title = PyField.absent → fieldRender p.title "未知标题" = "未知标题")
    ∧ (p.journal = PyField.absent → fieldRender p.journal "未知期刊" = "未知期刊")
    ∧ (p.year = PyField.absent → fieldRender p.year "0000" = "0000")
    ∧ (p.title = PyField.null → fieldRender p.title "未知标题" = "None")
    ∧ strContains (generate_reference p) (fieldRender p.title "未知标题")
    ∧ strContains (generate_reference p) (joinAuthors p.authors) := by
  refine ⟨?_, ?_, ?_, ?_, ?_, ?_, ?_⟩
  · rintro (h | h) <;> simp [joinAuthors, h]
  · intro h
    rw [h]
    rfl
  · intro h
    rw [h]
    rfl
  · intro h
    rw [h]
    rfl
  · intro h
    rw [h]
    rfl
  · exact gen_ref_extends p _ (strContains_refBase_title p)
  · exact gen_ref_extends p _ (strContains_refBase_authors p)

/-- C7 witness: a record with every optional field missing as a key
renders all four placeholders. -/
theorem generate_reference_placeholders_witness :
    joinAuthors paperE1.authors = "未知作者"
    ∧ strContains (generate_reference c7paper) (fieldRender c7paper.title "未知标题") :=
  ⟨(generate_reference_placeholders paperE1).1 (Or.inr rfl),
   (generate_reference_placeholders c7paper).2.2.2.2.2.1⟩

end PaperSearch
